import Mathlib

/-!
Verification of the table-transform core of the `utility` repository.

The repository holds two batch utilities:

* `excel_dvs_data/excel_dvs_data.py` derives normalized time/moisture
  columns in DVS spreadsheets: `add_change_column` assigns run ids that
  increment whenever a grouping column's value changes, and
  `add_normalised_column` subtracts, from every row, the target column's
  anchor value of the row's run; `check_for_needed_columns` validates the
  required columns before any transform runs.
* `mask_area/mask_area.py` converts counts of non-zero mask pixels into
  physical areas (`get_mask_area`) and builds sorted frequency /
  cumulative-frequency / percentile tables (`update_and_save_dataframe`).

Missing values (pandas `NaN`) are modelled as `Option` with `none` for
missing; exact rational arithmetic stands in for the numeric columns.
Lists stand in for pandas `Series` read in row order.
-/

namespace ExcelDvsData

variable {V : Type} [DecidableEq V]
variable {G : Type} [DecidableEq G]

/-- pandas elementwise `!=` on possibly missing scalars: a missing value
(`NaN`) compares unequal to everything, including another missing value. -/
def pandasNe (a b : Option V) : Bool :=
  match a, b with
  | some x, some y => decide (x ≠ y)
  | _, _ => true

/-- `series.shift()`: move every entry down one row; the first entry
becomes missing and the last entry drops off the end. -/
def shift (vs : List (Option V)) : List (Option V) :=
  (none :: vs).take vs.length

/-- The boolean column `df[target_column] != df[target_column].shift()`. -/
def neqShift (vs : List (Option V)) : List Bool :=
  (vs.zip (shift vs)).map fun p => pandasNe p.1 p.2

/-- `.cumsum()` over a boolean column (`True` counts as 1), with running
accumulator `acc`. -/
def cumsum (acc : ℕ) : List Bool → List ℕ
  | [] => []
  | b :: bs => (acc + if b then 1 else 0) :: cumsum (acc + if b then 1 else 0) bs

/-- `add_change_column` from `excel_dvs_data.py`: the new column is
`(df[target_column] != df[target_column].shift()).cumsum()`, i.e. the run
ids of the grouping column. -/
def add_change_column (vs : List (Option V)) : List ℕ :=
  cumsum 0 (neqShift vs)

/-- Fused recursion computing the same run ids directly, carrying the
previous value and the running id; used only to organise the proofs. -/
def changeIds (prev : Option V) (acc : ℕ) : List (Option V) → List ℕ
  | [] => []
  | v :: vs =>
      (acc + if pandasNe v prev then 1 else 0) ::
        changeIds v (acc + if pandasNe v prev then 1 else 0) vs

/-- pandas subtraction on possibly missing scalars: missing propagates. -/
def subOpt (a b : Option ℚ) : Option ℚ :=
  match a, b with
  | some x, some y => some (x - y)
  | _, _ => none

/-- `df.groupby(grouping_column)[target_column].transform("first")`: every
row receives the first non-missing target value among the rows that share
its grouping key, in row order (pandas `GroupBy.first` skips NA values and
yields NA when the whole group is NA). -/
def transform_first (g : List G) (t : List (Option ℚ)) : List (Option ℚ) :=
  g.map fun k =>
    ((((g.zip t).filter fun p => decide (p.1 = k)).map Prod.snd).filterMap id).head?

/-- `add_normalised_column` from `excel_dvs_data.py`, restricted to the
grouping column `g` and target column `t` it reads: the new column is
`df[target_column] - df.groupby(grouping_column)[target_column].transform("first")`. -/
def add_normalised_column (g : List G) (t : List (Option ℚ)) : List (Option ℚ) :=
  (t.zip (transform_first g t)).map fun p => subOpt p.1 p.2

/-- A DataFrame restricted to what the column checks observe: named
columns of possibly missing values, in column order. -/
abbrev Df (V : Type) := List (String × List (Option V))

/-- `df.columns`. -/
def dfColumns (df : Df V) : List String :=
  df.map Prod.fst

/-- Column selection `df[c]`, `none` when the column is absent. -/
def dfGet (df : Df V) (c : String) : Option (List (Option V)) :=
  (df.find? fun col => decide (col.1 = c)).map Prod.snd

/-- `df[column].notna().any()`. -/
def notnaAny (col : List (Option V)) : Bool :=
  col.any fun v => v.isSome

/-- The required-column list built inside `check_for_needed_columns`. -/
def needed_columns (pressure_solvent_column : String) : List String :=
  ["Time [minutes]", "Moisture content %", "RH Direction", pressure_solvent_column]

/-- The two distinguishable failure reasons logged by
`check_for_needed_columns`: the column exists but is full of NaN values,
or the column does not exist. -/
inductive ColumnIssue
  | fullOfNaN (column : String)
  | doesNotExist (column : String)
deriving DecidableEq

/-- The loop body of `check_for_needed_columns`: scan the required columns
in order and report the first failure, `none` when all checks pass. -/
def checkColumns (df : Df V) : List String → Option ColumnIssue
  | [] => none
  | c :: rest =>
      match dfGet df c with
      | some col =>
          if notnaAny col then checkColumns df rest
          else some (ColumnIssue.fullOfNaN c)
      | none => some (ColumnIssue.doesNotExist c)

/-- `check_for_needed_columns` from `excel_dvs_data.py`: `True` exactly
when no required column is absent or full of NaN values. -/
def check_for_needed_columns (df : Df V) (pressure_solvent_column : String) : Bool :=
  (checkColumns df (needed_columns pressure_solvent_column)).isNone

/-- `solvent_a_or_b` from `excel_dvs_data.py`: probe for the Solvent A
pressure column, then Solvent B, falling back to a message naming both. -/
def solvent_a_or_b (df : Df V) : String :=
  if "Target Partial Pressure (Solvent A) [%]" ∈ dfColumns df then
    "Target Partial Pressure (Solvent A) [%]"
  else if "Target Partial Pressure (Solvent B) [%]" ∈ dfColumns df then
    "Target Partial Pressure (Solvent B) [%]"
  else
    "Target Partial Pressure (Solvent A or B)"

/-- The sheet-name filter `re.match(r"^Sheet\d+$", sheet)` used by
`process_spreadsheet`. -/
def matchesSheetNumber (name : String) : Bool :=
  name.startsWith "Sheet" && decide ((name.drop 5) ≠ "") && (name.drop 5).all Char.isDigit

/-- Per-sheet outcome of the `process_spreadsheet` loop body: skipped for
its generic name, skipped because a required column is missing or all-NaN,
or processed. -/
inductive SheetOutcome
  | skippedName
  | skippedMissing
  | processed
deriving DecidableEq

/-- The per-sheet decision of `process_spreadsheet`: generically named
sheets are skipped, sheets failing `check_for_needed_columns` are skipped
with a log message, the rest are processed. -/
def process_sheet (sheet : String × Df V) : SheetOutcome :=
  if matchesSheetNumber sheet.1 then SheetOutcome.skippedName
  else if check_for_needed_columns sheet.2 (solvent_a_or_b sheet.2) then
    SheetOutcome.processed
  else SheetOutcome.skippedMissing

/-- The `process_spreadsheet` loop over the workbook's sheets: each sheet
is decided independently, so one failing sheet never aborts the batch. -/
def process_spreadsheet (sheets : List (String × Df V)) : List SheetOutcome :=
  sheets.map process_sheet

end ExcelDvsData

namespace MaskArea

/-- A grayscale raster as rows of pixel intensities; `cv2.countNonZero`
counts the pixels whose intensity is not zero. -/
def countNonZero (image : List (List ℕ)) : ℕ :=
  (image.map fun row => (row.filter fun px => decide (px ≠ 0)).length).sum

/-- `get_mask_area` from `mask_area.py`: the fixed calibration constant
`area_of_pixel = 4.92843e-05` (mm² per pixel) times the non-zero pixel
count, scaled by 1000 into the micron-based unit the script reports. -/
def get_mask_area (image : List (List ℕ)) : ℚ :=
  let num_of_pixels : ℚ := countNonZero image
  let area_of_pixel : ℚ := 4.92843e-5
  let mask_area := area_of_pixel * num_of_pixels
  let mask_area_microns := mask_area * 1000
  mask_area_microns

/-- One measurement record assembled by `create_csvs` per accepted image:
grid label, mask index, computed area. -/
structure ImageRow where
  grid : String
  mask : ℕ
  area : ℚ
deriving DecidableEq

/-- The two sort-key lists `create_csvs` passes to
`update_and_save_dataframe`: `["Grid", "Area"]` and `["Area"]`. -/
inductive SortBy
  | gridArea
  | areaOnly
deriving DecidableEq

/-- Row comparison realising the lexicographic order of the chosen sort
keys. -/
def rowLe : SortBy → ImageRow → ImageRow → Prop
  | SortBy.gridArea, r, s => r.grid < s.grid ∨ (r.grid = s.grid ∧ r.area ≤ s.area)
  | SortBy.areaOnly, r, s => r.area ≤ s.area

instance : ∀ (sb : SortBy), DecidableRel (rowLe sb)
  | SortBy.gridArea, r, s => by unfold rowLe; infer_instance
  | SortBy.areaOnly, r, s => by unfold rowLe; infer_instance

/-- `images_df.sort_values(by=sort_by)`. -/
def sort_values (sb : SortBy) (images_df : List ImageRow) : List ImageRow :=
  images_df.insertionSort (rowLe sb)

/-- `.cumsum()` over an integer column, with running accumulator `acc`. -/
def running_sum (acc : ℕ) : List ℕ → List ℕ
  | [] => []
  | n :: ns => (acc + n) :: running_sum (acc + n) ns

/-- The columns written by `update_and_save_dataframe`: the sorted rows
plus the derived Diameter, Freq and Cumulative Freq columns, and the
Percentage of Particle column when `calculate_percent` is set. -/
structure DistTable where
  rows : List ImageRow
  diameter : List ℚ
  freq : List ℕ
  cumFreq : List ℕ
  percent : Option (List ℚ)

/-- `update_and_save_dataframe` from `mask_area.py`, minus the CSV write.
`dia` stands for `get_diameter_from_area` (the floating-point
`2 * sqrt(area / pi)`, an irrational map the exact model keeps as a
parameter): `Diameter = Area.apply(dia)`;
`Freq = Diameter.map(Diameter.value_counts())` gives every row the number
of rows sharing its exact Diameter value; `Cumulative Freq` is the running
sum of Freq down the sorted order; with `calculate_percent`, row `k` of
the reset index receives `(k + 1) / len * 100`. -/
def update_and_save_dataframe (dia : ℚ → ℚ) (sb : SortBy)
    (images_df : List ImageRow) (calculate_percent : Bool) : DistTable :=
  let sorted_df := sort_values sb images_df
  let diameter := sorted_df.map fun r => dia r.area
  let freq := diameter.map fun d => diameter.count d
  { rows := sorted_df
    diameter := diameter
    freq := freq
    cumFreq := running_sum 0 freq
    percent :=
      if calculate_percent then
        some ((List.range sorted_df.length).map fun k : ℕ =>
          (((k : ℚ) + 1) / (sorted_df.length : ℚ)) * 100)
      else none }

end MaskArea

namespace ExcelDvsData

variable {V : Type} [DecidableEq V]
variable {G : Type} [DecidableEq G]

lemma pandasNe_right_none (v : Option V) : pandasNe v none = true := by
  cases v <;> rfl

lemma pandasNe_none_either (u w : Option V) (h : u = none ∨ w = none) :
    pandasNe w u = true := by
  rcases h with h | h
  · subst h; exact pandasNe_right_none w
  · subst h; cases u <;> rfl

lemma cumsum_take_zip (prev : Option V) (acc : ℕ) (vs : List (Option V)) :
    cumsum acc ((vs.zip ((prev :: vs).take vs.length)).map fun p => pandasNe p.1 p.2)
      = changeIds prev acc vs := by
  induction vs generalizing prev acc with
  | nil => rfl
  | cons v tl ih =>
      simp only [List.length_cons, List.take_succ_cons, List.zip_cons_cons,
        List.map_cons, cumsum, changeIds]
      exact congrArg (List.cons _) (ih v _)

lemma add_change_column_eq (vs : List (Option V)) :
    add_change_column vs = changeIds none 0 vs := by
  simpa [add_change_column, neqShift, shift] using cumsum_take_zip none 0 vs

lemma length_changeIds (prev : Option V) (acc : ℕ) (vs : List (Option V)) :
    (changeIds prev acc vs).length = vs.length := by
  induction vs generalizing prev acc with
  | nil => rfl
  | cons v tl ih => simp [changeIds, ih]

lemma length_add_change_column (vs : List (Option V)) :
    (add_change_column vs).length = vs.length := by
  rw [add_change_column_eq]; exact length_changeIds none 0 vs

lemma chain_changeIds (prev : Option V) (acc : ℕ) (vs : List (Option V)) :
    List.Chain' (fun a b => b = a ∨ b = a + 1) (changeIds prev acc vs) := by
  induction vs generalizing prev acc with
  | nil => exact List.chain'_nil
  | cons v tl ih =>
      cases tl with
      | nil => simp [changeIds]
      | cons w tl2 =>
          refine List.Chain'.cons ?_ (ih v _)
          by_cases h : pandasNe w v = true <;> simp [changeIds, h]

lemma changeIds_getElem?_succ (vs : List (Option V)) (prev : Option V) (acc i : ℕ)
    (a : ℕ) (x y : Option V)
    (ha : (changeIds prev acc vs)[i]? = some a)
    (hx : vs[i]? = some x) (hy : vs[i + 1]? = some y) :
    (changeIds prev acc vs)[i + 1]? = some (a + if pandasNe y x then 1 else 0) := by
  induction vs generalizing prev acc i with
  | nil => simp at hx
  | cons v tl ih =>
      cases i with
      | zero =>
          cases tl with
          | nil => simp at hy
          | cons w tl2 =>
              simp only [List.getElem?_cons_zero, Option.some_inj] at hx
              simp only [List.getElem?_cons_succ, List.getElem?_cons_zero,
                Option.some_inj] at hy
              simp only [changeIds, List.getElem?_cons_zero, Option.some_inj] at ha
              subst hx hy ha
              simp [changeIds]
      | succ j =>
          simp only [changeIds, List.getElem?_cons_succ] at ha hx hy ⊢
          exact ih v _ j ha hx hy

/-- **C2.** The Run-Change Detector (`add_change_column`) yields the empty
column on empty input; on non-empty input its first run id is 1; between
adjacent rows the run id stays or grows by exactly 1 (hence the column is
non-decreasing and starts at 1); and the grouping values
`["A", "A", "B", "A"]` yield run ids `[1, 1, 2, 3]`. -/
theorem run_ids_start_at_one_and_step_by_at_most_one (V : Type) [DecidableEq V] :
    (add_change_column ([] : List (Option V)) = []) ∧
    (∀ (v : Option V) (vs : List (Option V)),
      (add_change_column (v :: vs)).head? = some 1) ∧
    (∀ vs : List (Option V),
      List.Chain' (fun a b => b = a ∨ b = a + 1) (add_change_column vs)) ∧
    (∀ vs : List (Option V), (add_change_column vs).Sorted (· ≤ ·)) ∧
    add_change_column [some "A", some "A", some "B", some "A"] = [1, 1, 2, 3] := by
  have hchain : ∀ vs : List (Option V),
      List.Chain' (fun a b => b = a ∨ b = a + 1) (add_change_column vs) := by
    intro vs
    rw [add_change_column_eq]
    exact chain_changeIds none 0 vs
  refine ⟨rfl, ?_, hchain, ?_, by decide⟩
  · intro v vs
    rw [add_change_column_eq]
    simp [changeIds, pandasNe_right_none]
  · intro vs
    have h := (hchain vs).imp (fun hub => by omega : ∀ {a b : ℕ},
      (b = a ∨ b = a + 1) → a ≤ b)
    exact List.chain'_iff_pairwise.mp h

/-- **C4.** In the Run-Change Detector a missing value compares unequal to
everything, including another missing value, so at every row where either
the row's value or its predecessor's value is missing the run id
increments by exactly 1. -/
theorem missing_value_starts_new_run :
    (pandasNe (none : Option V) none = true) ∧
    (∀ (vs : List (Option V)) (i a : ℕ) (u w : Option V),
      (add_change_column vs)[i]? = some a →
      vs[i]? = some u → vs[i + 1]? = some w →
      (u = none ∨ w = none) →
      (add_change_column vs)[i + 1]? = some (a + 1)) := by
  refine ⟨rfl, ?_⟩
  intro vs i a u w ha hu hw hnone
  rw [add_change_column_eq] at ha ⊢
  have := changeIds_getElem?_succ vs none 0 i a u w ha hu hw
  rwa [pandasNe_none_either u w hnone, if_pos rfl] at this

/-- Witness for C4 at the concrete input `[none, none]`: the second
missing row starts run 2. -/
theorem missing_value_starts_new_run_witness :
    (add_change_column ([none, none] : List (Option ℕ)))[1]? = some 2 :=
  missing_value_starts_new_run.2 [none, none] 0 1 none none (by decide)
    (by decide) (by decide) (Or.inl rfl)

lemma head?_filterMap_of_first {α : Type} (l : List α) (p : α → Bool) (f : α → Option ℚ)
    (i : ℕ) (a : α) (x : ℚ)
    (hpa : p a = true) (hfa : f a = some x)
    (hi : l[i]? = some a)
    (hprev : ∀ j b, j < i → l[j]? = some b → p b = false ∨ f b = none) :
    (((l.filter p).map f).filterMap id).head? = some x := by
  revert hi hprev
  induction l generalizing i with
  | nil => intro hi _; simp at hi
  | cons c tl ih =>
      intro hi hprev
      cases i with
      | zero =>
          simp only [List.getElem?_cons_zero, Option.some_inj] at hi
          subst hi
          simp [List.filter_cons, hpa, hfa]
      | succ j =>
          have h0 := hprev 0 c (Nat.succ_pos j) (by simp)
          have hprev2 : ∀ j2 b, j2 < j → tl[j2]? = some b → p b = false ∨ f b = none := by
            intro j2 b hj hb
            exact hprev (j2 + 1) b (Nat.succ_lt_succ hj) (by simpa using hb)
          simp only [List.getElem?_cons_succ] at hi
          cases hp : p c with
          | false => simpa [List.filter_cons, hp] using ih j hi hprev2
          | true =>
              rcases h0 with h0 | h0
              · rw [hp] at h0; cases h0
              · simpa [List.filter_cons, hp, h0] using ih j hi hprev2

lemma transform_first_getElem? (g : List G) (t : List (Option ℚ)) (i : ℕ) (k : G)
    (hk : g[i]? = some k) :
    (transform_first g t)[i]? =
      some (((((g.zip t).filter fun p => decide (p.1 = k)).map Prod.snd).filterMap id).head?) := by
  simp [transform_first, List.getElem?_map, hk]

lemma add_normalised_getElem? (g : List G) (t : List (Option ℚ)) (i : ℕ)
    (x y : Option ℚ) (ht : t[i]? = some x) (htf : (transform_first g t)[i]? = some y) :
    (add_normalised_column g t)[i]? = some (subOpt x y) := by
  have hz : (t.zip (transform_first g t))[i]? = some (x, y) :=
    List.getElem?_zip_eq_some.mpr ⟨ht, htf⟩
  simp [add_normalised_column, List.getElem?_map, hz]

lemma subOpt_none_left (y : Option ℚ) : subOpt none y = none := by
  cases y <;> rfl

/-- **C1.** For every grouping column and every run produced by the
Run-Change Detector (`add_change_column`), the Run-Relative Normalizer
(`add_normalised_column`) outputs exactly 0 at the first row of the run,
provided the target column's value at that row is not missing; the
subtraction is the exact identity `x - x = 0`. -/
theorem normalised_first_row_of_run_is_zero
    (vs : List (Option V)) (t : List (Option ℚ)) (i r : ℕ) (x : ℚ)
    (hr : (add_change_column vs)[i]? = some r)
    (hfirst : ∀ j b, j < i → (add_change_column vs)[j]? = some b → b ≠ r)
    (ht : t[i]? = some (some x)) :
    (add_normalised_column (add_change_column vs) t)[i]? = some (some 0) := by
  set g := add_change_column vs with hg
  have hzi : (g.zip t)[i]? = some (r, some x) :=
    List.getElem?_zip_eq_some.mpr ⟨hr, ht⟩
  have hhead :
      ((((g.zip t).filter fun p => decide (p.1 = r)).map Prod.snd).filterMap id).head?
        = some x := by
    apply head?_filterMap_of_first (g.zip t) _ _ i (r, some x) x (by simp) rfl hzi
    intro j b hj hb
    left
    rcases List.getElem?_zip_eq_some.mp hb with ⟨hb1, _⟩
    exact decide_eq_false (hfirst j b.1 hj hb1)
  have htf := transform_first_getElem? g t i r hr
  rw [hhead] at htf
  have hout := add_normalised_getElem? g t i (some x) (some x) ht htf
  simpa [subOpt] using hout

/-- Witness for C1: a one-row run with target value 5 normalizes to 0. -/
theorem normalised_first_row_of_run_is_zero_witness :
    (add_normalised_column (add_change_column [some "A"]) [some (5 : ℚ)])[0]?
      = some (some 0) :=
  normalised_first_row_of_run_is_zero [some "A"] [some 5] 0 1 5 (by decide)
    (fun j _ hj _ => absurd hj (Nat.not_lt_zero j)) (by decide)

/-- **C3 counterexample.** The claim says a run whose first target value
is missing yields a missing output at every row of the run. For the
grouping values `["A", "A"]` (one run) and target `[missing, 5]` the code
outputs `[missing, 0]`: pandas `GroupBy.first` skips the missing anchor,
so the second row's output is 0, not missing. -/
theorem normalised_missing_anchor_counterexample :
    add_normalised_column (add_change_column [some "A", some "A"])
        [none, some (5 : ℚ)] = [none, some 0] ∧
    (add_normalised_column (add_change_column [some "A", some "A"])
        [none, some (5 : ℚ)])[1]? ≠ some none := by
  have hg : add_change_column [some "A", some "A"] = [1, 1] := by decide
  rw [hg]
  constructor
  · norm_num [add_normalised_column, transform_first, subOpt]
  · norm_num [add_normalised_column, transform_first, subOpt]
    exact Option.some_ne_none 0

/-- **C3 (amended).** The Run-Relative Normalizer anchors each run at the
run's first *non-missing* target value, because pandas `GroupBy.first`
skips NA: every row whose own target value is missing yields a missing
output (in particular a run all of whose target values are missing yields
missing everywhere), and the row holding the run's first non-missing
target value yields exactly 0. -/
theorem normalised_missing_propagation :
    (∀ (g : List ℕ) (t : List (Option ℚ)) (i : ℕ) (k : ℕ),
      g[i]? = some k → t[i]? = some none →
      (add_normalised_column g t)[i]? = some none) ∧
    (∀ (g : List ℕ) (t : List (Option ℚ)) (i : ℕ) (k : ℕ) (x : ℚ),
      g[i]? = some k → t[i]? = some (some x) →
      (∀ j, j < i → g[j]? = some k → t[j]? = some none) →
      (add_normalised_column g t)[i]? = some (some 0)) := by
  constructor
  · intro g t i k hk ht
    have htf := transform_first_getElem? g t i k hk
    have hout := add_normalised_getElem? g t i none _ ht htf
    rwa [subOpt_none_left] at hout
  · intro g t i k x hk ht hgroup
    have hzi : (g.zip t)[i]? = some (k, some x) :=
      List.getElem?_zip_eq_some.mpr ⟨hk, ht⟩
    have hhead :
        ((((g.zip t).filter fun p => decide (p.1 = k)).map Prod.snd).filterMap id).head?
          = some x := by
      apply head?_filterMap_of_first (g.zip t) _ _ i (k, some x) x (by simp) rfl hzi
      intro j b hj hb
      rcases List.getElem?_zip_eq_some.mp hb with ⟨hb1, hb2⟩
      by_cases hbk : b.1 = k
      · right
        have := hgroup j hj (hbk ▸ hb1)
        rw [hb2] at this
        exact Option.some_inj.mp this
      · left
        exact decide_eq_false hbk
    have htf := transform_first_getElem? g t i k hk
    rw [hhead] at htf
    have hout := add_normalised_getElem? g t i (some x) (some x) ht htf
    simpa [subOpt] using hout

/-- Witness for the amended C3: grouping `[1, 1]`, target `[missing, 5]`;
the run's first non-missing value is at row 1, which normalizes to 0. -/
theorem normalised_missing_propagation_witness :
    (add_normalised_column [1, 1] [none, some (5 : ℚ)])[1]? = some (some 0) :=
  normalised_missing_propagation.2 [1, 1] [none, some 5] 1 1 5 (by decide) (by decide)
    (by
      intro j hj _
      have hj0 : j = 0 := by omega
      subst hj0
      rfl)

lemma changeIds_reapply (vs : List (Option V)) (v0 : Option V) (c : ℕ) :
    changeIds (some c) c ((changeIds v0 c vs).map some) = changeIds v0 c vs := by
  induction vs generalizing v0 c with
  | nil => rfl
  | cons v tl ih =>
      by_cases h : pandasNe v v0 = true
      · have hne : pandasNe (some (c + 1)) (some c) = true := by
          simp [pandasNe]
        simp only [changeIds, h, if_true, List.map_cons, hne]
        exact congrArg (List.cons _) (ih v (c + 1))
      · have h' : pandasNe v v0 = false := by
          revert h; cases pandasNe v v0 <;> simp
        have hne : pandasNe (some c) (some c) = false := by
          simp [pandasNe]
        simp only [changeIds, h', Bool.false_eq_true, if_false, add_zero,
          List.map_cons, hne]
        exact congrArg (List.cons _) (ih v c)

/-- **C5 counterexample.** The claim says re-applying the Run-Change
Detector to its own output yields one run per row because run ids are
unique. For the input `["A", "A"]` (N = 2) the run ids are `[1, 1]`;
re-applying the detector to them again yields `[1, 1]` — a single run for
two rows, and the ids are not pairwise distinct. -/
theorem change_column_reapply_counterexample :
    add_change_column ((add_change_column [some "A", some "A"]).map some) = [1, 1] ∧
    ¬ (add_change_column ((add_change_column [some "A", some "A"]).map some)).Nodup := by
  decide

/-- **C5 (amended).** Re-applying the Run-Change Detector to its own
output, treating the run-id column as the new grouping column, reproduces
exactly the same run-id sequence (idempotence); the number of runs equals
the last run id, which equals N only when every row started its own run. -/
theorem change_column_idempotent (vs : List (Option V)) :
    add_change_column ((add_change_column vs).map some) = add_change_column vs := by
  simp only [add_change_column_eq]
  cases vs with
  | nil => rfl
  | cons v tl =>
      have h1 : pandasNe v none = true := pandasNe_right_none v
      have h2 : pandasNe (some 1) (none : Option ℕ) = true := rfl
      simp only [changeIds, h1, if_true, List.map_cons, h2, zero_add]
      exact congrArg (List.cons _) (changeIds_reapply tl v 1)

end ExcelDvsData

namespace MaskArea

/-- **C9.** `get_mask_area` returns the non-zero pixel count times the
calibration constant `4.92843e-05` times 1000; an image with exactly 2000
non-zero pixels yields exactly the area `98.5686`. -/
theorem mask_area_is_calibrated_pixel_count :
    (∀ image : List (List ℕ),
      get_mask_area image = (countNonZero image : ℚ) * 4.92843e-5 * 1000) ∧
    (∀ image : List (List ℕ), countNonZero image = 2000 →
      get_mask_area image = 98.5686) := by
  have hform : ∀ image : List (List ℕ),
      get_mask_area image = (countNonZero image : ℚ) * 4.92843e-5 * 1000 := by
    intro image
    simp only [get_mask_area]
    ring
  refine ⟨hform, fun image h => ?_⟩
  rw [hform, h]
  norm_num

/-- Witness for C9: a single row of 2000 white pixels. -/
theorem mask_area_is_calibrated_pixel_count_witness :
    countNonZero [List.replicate 2000 1] = 2000 ∧
    get_mask_area [List.replicate 2000 1] = 98.5686 := by
  have hc : countNonZero [List.replicate 2000 1] = 2000 := by
    simp only [countNonZero, List.map_cons, List.map_nil, List.filter_replicate]
    norm_num
  exact ⟨hc, mask_area_is_calibrated_pixel_count.2 _ hc⟩

lemma length_sort_values (sb : SortBy) (rows : List ImageRow) :
    (sort_values sb rows).length = rows.length :=
  List.length_insertionSort _ _

lemma running_sum_getLast? (l : List ℕ) (acc : ℕ) (h : l ≠ []) :
    (running_sum acc l).getLast? = some (acc + l.sum) := by
  induction l generalizing acc with
  | nil => exact absurd rfl h
  | cons n ns ih =>
      cases ns with
      | nil => simp [running_sum]
      | cons m ms =>
          have hih := ih (acc + n) (by simp)
          simp only [running_sum] at hih ⊢
          rw [List.getLast?_cons_cons, hih]
          simp only [List.sum_cons]
          exact congrArg some (by omega)

/-- **C7.** With the percentile flag set, `update_and_save_dataframe`
assigns the row at 0-based sorted position `k` the value
`(k + 1) / N * 100` for a table of `N` rows; the column is strictly
increasing, its first value is exactly `100 / N`, and its last value is
exactly `100`. -/
theorem percent_column_spec (dia : ℚ → ℚ) (sb : SortBy) (images_df : List ImageRow)
    (h : images_df ≠ []) :
    ∃ ps : List ℚ,
      (update_and_save_dataframe dia sb images_df true).percent = some ps ∧
      (∀ k, k < images_df.length →
        ps[k]? = some ((((k : ℚ) + 1) / (images_df.length : ℚ)) * 100)) ∧
      ps.head? = some (100 / (images_df.length : ℚ)) ∧
      ps.getLast? = some 100 ∧
      List.Pairwise (· < ·) ps := by
  have hlen : (sort_values sb images_df).length = images_df.length :=
    length_sort_values sb images_df
  have hNpos : 0 < images_df.length := List.length_pos.mpr h
  have hNne : (images_df.length : ℚ) ≠ 0 := Nat.cast_ne_zero.mpr (by omega)
  refine ⟨(List.range images_df.length).map fun k : ℕ =>
      (((k : ℚ) + 1) / (images_df.length : ℚ)) * 100, ?_, ?_, ?_, ?_, ?_⟩
  · simp [update_and_save_dataframe, hlen]
  · intro k hk
    rw [List.getElem?_map, List.getElem?_range hk]
    rfl
  · rw [List.head?_eq_getElem?, List.getElem?_map, List.getElem?_range hNpos]
    simp only [Option.map_some', Option.some_inj, Nat.cast_zero, zero_add]
    rw [div_mul_eq_mul_div, one_mul]
  · rw [List.getLast?_eq_getElem?]
    have hlen2 : ((List.range images_df.length).map fun k : ℕ =>
        (((k : ℚ) + 1) / (images_df.length : ℚ)) * 100).length = images_df.length := by
      simp
    rw [hlen2, List.getElem?_map, List.getElem?_range (by omega : images_df.length - 1 < images_df.length)]
    simp only [Option.map_some', Option.some_inj]
    have h1 : ((images_df.length - 1 : ℕ) : ℚ) = (images_df.length : ℚ) - 1 := by
      push_cast [Nat.cast_sub (by omega : 1 ≤ images_df.length)]
      ring
    rw [h1]
    have h2 : ((images_df.length : ℚ) - 1 + 1) = (images_df.length : ℚ) := by ring
    rw [h2, div_self hNne, one_mul]
  · refine (List.pairwise_lt_range images_df.length).map _ ?_
    intro a b hab
    have hN0 : (0 : ℚ) < (images_df.length : ℚ) := by
      exact_mod_cast hNpos
    have hab2 : ((a : ℚ) + 1) < ((b : ℚ) + 1) := by
      have : (a : ℚ) < (b : ℚ) := by exact_mod_cast hab
      linarith
    have hdiv : ((a : ℚ) + 1) / (images_df.length : ℚ) <
        ((b : ℚ) + 1) / (images_df.length : ℚ) :=
      (div_lt_div_iff_of_pos_right hN0).mpr hab2
    exact mul_lt_mul_of_pos_right hdiv (by norm_num)

/-- Witness for C7 at a one-row table: the percentile column exists and
ends at exactly 100. -/
theorem percent_column_spec_witness :
    ∃ ps : List ℚ,
      (update_and_save_dataframe id SortBy.areaOnly
        [{ grid := "a", mask := 2, area := 1 }] true).percent = some ps ∧
      ps.getLast? = some 100 := by
  obtain ⟨ps, h1, _, _, h4, _⟩ :=
    percent_column_spec id SortBy.areaOnly [{ grid := "a", mask := 2, area := 1 }]
      (by simp)
  exact ⟨ps, h1, h4⟩

lemma toFinset_sum_count_eq_length (l : List ℚ) :
    ∑ d ∈ l.toFinset, l.count d = l.length := by
  simp

lemma sum_count_lt_sum_count_sq (l : List ℚ) (a : ℚ) (ha : 1 < l.count a) :
    ∑ d ∈ l.toFinset, l.count d < ∑ d ∈ l.toFinset, l.count d ^ 2 := by
  have hmem : a ∈ l.toFinset :=
    List.mem_toFinset.mpr (List.count_pos_iff.mp (by omega))
  refine Finset.sum_lt_sum (fun i _ => Nat.le_self_pow two_ne_zero _) ⟨a, hmem, ?_⟩
  nlinarith

lemma sum_count_sq_eq_length_iff (l : List ℚ) :
    (∑ d ∈ l.toFinset, l.count d ^ 2) = l.length ↔ l.Nodup := by
  rw [← toFinset_sum_count_eq_length l]
  constructor
  · intro hs
    rw [List.nodup_iff_count_le_one]
    intro a
    by_contra hc
    push_neg at hc
    exact absurd hs.symm (Nat.ne_of_lt (sum_count_lt_sum_count_sq l a hc))
  · intro hn
    refine Finset.sum_congr rfl fun d hd => ?_
    have h1 : l.count d = 1 :=
      List.count_eq_one_of_mem hn (List.mem_toFinset.mp hd)
    rw [h1, one_pow]

/-- **C10.** The Distribution Builder sets each row's Freq to the number
of rows of the whole table sharing that row's exact Diameter value, so the
final Cumulative Freq value is the sum, over distinct diameters, of the
square of their multiplicity; it equals the row count exactly when all
diameters are distinct and strictly exceeds it whenever any diameter is
tied. -/
theorem freq_and_cumulative_freq_spec (dia : ℚ → ℚ) (sb : SortBy)
    (calculate_percent : Bool) (images_df : List ImageRow) (h : images_df ≠ []) :
    let T := update_and_save_dataframe dia sb images_df calculate_percent
    (∀ (i : ℕ) (d : ℚ), T.diameter[i]? = some d →
      T.freq[i]? = some (T.diameter.count d)) ∧
    T.cumFreq.getLast? = some (∑ d ∈ T.diameter.toFinset, T.diameter.count d ^ 2) ∧
    (T.cumFreq.getLast? = some images_df.length ↔ T.diameter.Nodup) ∧
    (¬ T.diameter.Nodup →
      ∃ m, T.cumFreq.getLast? = some m ∧ images_df.length < m) := by
  intro T
  have hdi : T.diameter = (sort_values sb images_df).map fun r => dia r.area := rfl
  have hfr : T.freq = T.diameter.map fun d => T.diameter.count d := rfl
  have hcf : T.cumFreq = running_sum 0 T.freq := rfl
  have hdlen : T.diameter.length = images_df.length := by
    rw [hdi, List.length_map, length_sort_values]
  have hdne : T.diameter ≠ [] := by
    intro hnil
    rw [hnil] at hdlen
    exact h (List.length_eq_zero.mp hdlen.symm)
  have hfne : T.freq ≠ [] := by
    rw [hfr]
    exact fun hnil => hdne (List.map_eq_nil_iff.mp hnil)
  have hsum : T.freq.sum = ∑ d ∈ T.diameter.toFinset, T.diameter.count d ^ 2 := by
    rw [hfr, Finset.sum_list_map_count]
    refine Finset.sum_congr rfl fun d _ => ?_
    rw [smul_eq_mul, sq]
  have hlast : T.cumFreq.getLast? =
      some (∑ d ∈ T.diameter.toFinset, T.diameter.count d ^ 2) := by
    rw [hcf, running_sum_getLast? T.freq 0 hfne, Nat.zero_add, hsum]
  refine ⟨?_, hlast, ?_, ?_⟩
  · intro i d hd
    rw [hfr, List.getElem?_map, hd]
    rfl
  · rw [hlast]
    rw [Option.some_inj]
    rw [← hdlen]
    exact sum_count_sq_eq_length_iff T.diameter
  · intro hnodup
    refine ⟨∑ d ∈ T.diameter.toFinset, T.diameter.count d ^ 2, hlast, ?_⟩
    rw [List.nodup_iff_count_le_one] at hnodup
    push_neg at hnodup
    obtain ⟨a, ha⟩ := hnodup
    calc images_df.length = T.diameter.length := hdlen.symm
      _ = ∑ d ∈ T.diameter.toFinset, T.diameter.count d :=
          (toFinset_sum_count_eq_length T.diameter).symm
      _ < ∑ d ∈ T.diameter.toFinset, T.diameter.count d ^ 2 :=
          sum_count_lt_sum_count_sq T.diameter a ha

/-- Witness for C10 at a two-row table with tied areas (both 1): the final
Cumulative Freq strictly exceeds the row count 2. -/
theorem freq_and_cumulative_freq_spec_witness :
    ∃ m, (update_and_save_dataframe id SortBy.areaOnly
        [{ grid := "a", mask := 2, area := 1 },
         { grid := "b", mask := 3, area := 1 }] false).cumFreq.getLast? = some m ∧
      2 < m := by
  have hspec := freq_and_cumulative_freq_spec id SortBy.areaOnly false
    [{ grid := "a", mask := 2, area := 1 },
     { grid := "b", mask := 3, area := 1 }] (by simp)
  exact hspec.2.2.2 (by decide)

end MaskArea

namespace ExcelDvsData

lemma checkColumns_isNone_iff {V : Type} (df : Df V) (cols : List String) :
    (checkColumns df cols).isNone = true ↔
      ∀ c ∈ cols, ∃ col, dfGet df c = some col ∧ notnaAny col = true := by
  induction cols with
  | nil => simp [checkColumns]
  | cons c rest ih =>
      cases hc : dfGet df c with
      | none => simp [checkColumns, hc]
      | some col =>
          cases hn : notnaAny col with
          | false => simp [checkColumns, hc, hn]
          | true => simp [checkColumns, hc, hn, ih]

lemma checkColumns_doesNotExist {V : Type} (df : Df V) (cols : List String) (c : String)
    (h : checkColumns df cols = some (ColumnIssue.doesNotExist c)) :
    dfGet df c = none := by
  induction cols with
  | nil => simp [checkColumns] at h
  | cons c0 rest ih =>
      cases hc : dfGet df c0 with
      | none =>
          simp [checkColumns, hc] at h
          subst h
          exact hc
      | some col =>
          cases hn : notnaAny col with
          | true =>
              simp only [checkColumns, hc, hn, if_true] at h
              exact ih h
          | false => simp [checkColumns, hc, hn] at h

lemma checkColumns_fullOfNaN {V : Type} (df : Df V) (cols : List String) (c : String)
    (h : checkColumns df cols = some (ColumnIssue.fullOfNaN c)) :
    ∃ col, dfGet df c = some col ∧ notnaAny col = false := by
  induction cols with
  | nil => simp [checkColumns] at h
  | cons c0 rest ih =>
      cases hc : dfGet df c0 with
      | none => simp [checkColumns, hc] at h
      | some col =>
          cases hn : notnaAny col with
          | true =>
              simp only [checkColumns, hc, hn, if_true] at h
              exact ih h
          | false =>
              simp [checkColumns, hc, hn] at h
              subst h
              exact ⟨col, hc, hn⟩

/-- **C8.** `check_for_needed_columns` passes exactly when every required
column is present and holds at least one non-missing value; the reported
reason separates an absent column (`doesNotExist`) from a
present-but-all-missing column (`fullOfNaN`), and the two reasons are
distinguishable; a sheet failing the check maps to a skipped outcome, and
the `process_spreadsheet` loop decides every sheet independently, so
replacing one sheet never changes any other sheet's outcome. -/
theorem column_check_spec (V : Type) :
    (∀ (df : Df V) (psc : String),
      check_for_needed_columns df psc = true ↔
        ∀ c ∈ needed_columns psc, ∃ col, dfGet df c = some col ∧ notnaAny col = true) ∧
    (∀ (df : Df V) (psc c : String),
      checkColumns df (needed_columns psc) = some (ColumnIssue.doesNotExist c) →
        dfGet df c = none) ∧
    (∀ (df : Df V) (psc c : String),
      checkColumns df (needed_columns psc) = some (ColumnIssue.fullOfNaN c) →
        ∃ col, dfGet df c = some col ∧ notnaAny col = false) ∧
    (∀ c c2 : String, ColumnIssue.doesNotExist c ≠ ColumnIssue.fullOfNaN c2) ∧
    (∀ (name : String) (df : Df V),
      matchesSheetNumber name = false →
      check_for_needed_columns df (solvent_a_or_b df) = false →
      process_sheet (name, df) = SheetOutcome.skippedMissing) ∧
    (∀ (sheets : List (String × Df V)) (i : ℕ) (sheet : String × Df V) (j : ℕ),
      j ≠ i →
      (process_spreadsheet (sheets.set i sheet))[j]? = (process_spreadsheet sheets)[j]?) := by
  refine ⟨?_, ?_, ?_, ?_, ?_, ?_⟩
  · intro df psc
    exact checkColumns_isNone_iff df (needed_columns psc)
  · intro df psc c h
    exact checkColumns_doesNotExist df (needed_columns psc) c h
  · intro df psc c h
    exact checkColumns_fullOfNaN df (needed_columns psc) c h
  · intro c c2 h
    cases h
  · intro name df hname hcheck
    simp [process_sheet, hname, hcheck]
  · intro sheets i sheet j hj
    simp only [process_spreadsheet, List.getElem?_map]
    rw [List.getElem?_set_ne (fun hij => hj hij.symm)]

/-- Witness for C8: a DataFrame holding all four required columns with a
non-missing value in each passes the check. -/
theorem column_check_spec_witness :
    check_for_needed_columns
      ([("Time [minutes]", [some 1]),
        ("Moisture content %", [some 2]),
        ("RH Direction", [some 3]),
        ("Target Partial Pressure (Solvent A) [%]", [some 4])] : Df ℕ)
      "Target Partial Pressure (Solvent A) [%]" = true := by
  refine ((column_check_spec ℕ).1 _ _).mpr ?_
  intro c hc
  simp only [needed_columns, List.mem_cons, List.not_mem_nil, or_false] at hc
  rcases hc with rfl | rfl | rfl | rfl
  · exact ⟨[some 1], by decide, by decide⟩
  · exact ⟨[some 2], by decide, by decide⟩
  · exact ⟨[some 3], by decide, by decide⟩
  · exact ⟨[some 4], by decide, by decide⟩

end ExcelDvsData
